import Mathlib

set_option linter.unnecessarySeqFocus false

/-!
Shallow embedding of the Hermes standalone JavaScript client
(`hermes-client.js`): the `HermesClient` class with its SSE connection
lifecycle (`connectSSE`, `disconnectSSE`, the `onopen` / `onmessage` /
`onerror` transport handlers, `getStatus`) and its event-listener registry
(`on`, `off`, `emit`).

Modelling conventions:
* JavaScript nullable strings become `Option String`; `none` models
  `null`/`undefined` and `some ""` models the empty string (both falsy).
* The `EventSource` transport handle is modelled by a numeric id; a `World`
  tracks the client object together with the set of handles opened and not
  yet closed, the pending `setTimeout` reconnect closures (each closure
  captured the resolved `userId` of the `connectSSE` call that installed
  the handler), and a log of the `emit` calls the handlers perform.
* Transport callbacks (`onopen`, `onmessage`, `onerror`) are installed on
  the current handle; a closed `EventSource` delivers no further signals,
  and the client only ever closes a handle when it stops being
  `this.eventSource`, so a signal can only arrive while a current handle
  exists (the `match` guard on `eventSource`).
* `JSON.parse` is an external runtime primitive; its outcome is modelled
  as `Option JVal` (`none` = the parse threw).
* The listener registry and `emit` are modelled separately (over abstract
  callback behaviours) so that reentrant subscribe/unsubscribe and throwing
  callbacks can be analysed; in the lifecycle model `World.events` records
  the `emit` invocations in order.
-/

namespace Hermes

/-- A JSON value, the result of a successful `JSON.parse`. -/
inductive JVal where
  | jnull
  | jbool (b : Bool)
  | jnum (n : Int)
  | jstr (s : String)
  | jarr (elems : List JVal)
  | jobj (fields : List (String × JVal))
deriving Repr

/-- JS property access `data.f` on a parsed JSON value: the first field of
that name when the value is an object, otherwise `none` (undefined). -/
def JVal.getField : JVal → String → Option JVal
  | .jobj fields, k => fields.lookup k
  | _, _ => none

/-- JS strict equality `v === s` of a possibly-undefined value against a
string literal: true exactly when the value is that string. -/
def jsStrEq (v : Option JVal) (s : String) : Bool :=
  match v with
  | some (.jstr t) => t = s
  | _ => false

/-- The five fixed event names of `this.listeners`. -/
inductive EventName where
  | notification
  | connected
  | disconnected
  | error
  | unreadCount
deriving Repr, DecidableEq

/-- The payload passed to `emit` at each call site of the client. -/
inductive Payload where
  /-- the full parsed message `data` -/
  | json (v : JVal)
  /-- `data.count` (possibly undefined) -/
  | countField (v : Option JVal)
  /-- the object with the `userId` field built in `onopen` -/
  | userObj (userId : String)
  /-- the object with the `reason` field built in `onerror` / `disconnectSSE` -/
  | reasonObj (reason : String)
  /-- the opaque transport error object handed to `onerror` -/
  | errObj

/-- One `emit(event, data)` invocation performed by the client. -/
structure EmitRec where
  name : EventName
  payload : Payload

/-- An ordered listener list per event name, callbacks identified by
numeric id (JS function identity).  The constructor initialises all five
lists to `[]`. -/
structure Listeners where
  notification : List Nat
  connected : List Nat
  disconnected : List Nat
  error : List Nat
  unreadCount : List Nat
deriving Repr, DecidableEq

/-- `this.listeners[event]`. -/
def getL (st : Listeners) : EventName → List Nat
  | .notification => st.notification
  | .connected => st.connected
  | .disconnected => st.disconnected
  | .error => st.error
  | .unreadCount => st.unreadCount

/-- `this.listeners[event] = l`. -/
def setL (st : Listeners) : EventName → List Nat → Listeners
  | .notification, l => { st with notification := l }
  | .connected, l => { st with connected := l }
  | .disconnected, l => { st with disconnected := l }
  | .error, l => { st with error := l }
  | .unreadCount, l => { st with unreadCount := l }

/-- The registry as initialised by the constructor: all five lists empty. -/
def initListeners : Listeners :=
  { notification := [], connected := [], disconnected := [], error := [],
    unreadCount := [] }

/-- The recognised constructor options (`config`). `none` models an absent
or null option. -/
structure Config where
  baseUrl : Option String
  appToken : Option String
  profileToken : Option String
  userId : Option String
  debug : Bool
  reconnectDelay : Option Nat
  maxReconnectAttempts : Option Nat

/-- JS `a || b` for a nullable string with a string default:
`null`/`undefined` and `""` are falsy. -/
def jsOrStr : Option String → String → String
  | some s, d => if s = "" then d else s
  | none, d => d

/-- JS `a || null` for a nullable string: a falsy value collapses to null. -/
def jsOrNull : Option String → Option String
  | some s => if s = "" then none else some s
  | none => none

/-- JS `a || b` for a nullable number with a numeric default:
`null`/`undefined` and `0` are falsy. -/
def jsOrNat : Option Nat → Nat → Nat
  | some n, d => if n = 0 then d else n
  | none, d => d

/-- JS falsiness of a nullable string (`!token`). -/
def falsyStr : Option String → Bool
  | none => true
  | some s => s = ""

/-- The fields of a `HermesClient` instance (`timeout`, `debug` and
`sseEnabled` play no role in the modelled operations and are dropped). -/
structure Client where
  baseUrl : String
  appToken : Option String
  profileToken : Option String
  userId : Option String
  reconnectDelay : Nat
  maxReconnectAttempts : Nat
  /-- `this.eventSource`: id of the current handle, `none` for null -/
  eventSource : Option Nat
  reconnectAttempts : Nat
  isConnected : Bool
  listeners : Listeners

/-- The `HermesClient` constructor. -/
def mkClient (config : Config) : Client :=
  { baseUrl := jsOrStr config.baseUrl "http://localhost:8000"
    appToken := jsOrNull config.appToken
    profileToken := jsOrNull config.profileToken
    userId := jsOrNull config.userId
    reconnectDelay := jsOrNat config.reconnectDelay 5000
    maxReconnectAttempts := jsOrNat config.maxReconnectAttempts 10
    eventSource := none
    reconnectAttempts := 0
    isConnected := false
    listeners := initListeners }

/-- A client together with its runtime environment: the transport handles
opened and not yet closed, the pending `setTimeout` reconnect closures
(in scheduling order, each holding its captured `userId`), the resolved
`userId` captured by the handlers of the current handle, and the ordered
log of `emit` calls performed by the client. -/
structure World where
  client : Client
  /-- fresh id supply for new `EventSource` handles -/
  nextHandle : Nat
  /-- handles on which `new EventSource(..)` ran and `.close()` did not -/
  openHandles : List Nat
  /-- pending scheduled reconnects: the captured `userId` of each closure -/
  timers : List String
  /-- the `userId` local captured by the current handle's callbacks -/
  esUser : String
  events : List EmitRec

/-- A freshly constructed client in a quiescent environment. -/
def mkWorld (config : Config) : World :=
  { client := mkClient config
    nextHandle := 0
    openHandles := []
    timers := []
    esUser := ""
    events := [] }

/-- `disconnectSSE()`: when a handle exists, `close()` it, null the field,
clear the connected flag and emit `disconnected` with reason `manual`;
otherwise do nothing. -/
def disconnectSSE (w : World) : World :=
  match w.client.eventSource with
  | none => w
  | some h =>
    { w with
      openHandles := w.openHandles.erase h
      client := { w.client with eventSource := none, isConnected := false }
      events := w.events ++ [⟨.disconnected, .reasonObj "manual"⟩] }

/-- The two `throw new Error(..)` sites of `connectSSE`. -/
inductive JsError where
  | missingUserId
  | missingProfileToken
deriving Repr, DecidableEq

/-- The `userId` parameter of `connectSSE(userId = this.userId)` after
defaulting and the `if (!userId)` falsiness test: `none` means the check
throws. -/
def resolveUser (c : Client) (arg : Option String) : Option String :=
  match arg with
  | some s => if s = "" then none else some s
  | none => match c.userId with
    | some s => if s = "" then none else some s
    | none => none

/-- The tail of `connectSSE` once both checks passed: tear down an
existing handle via `disconnectSSE` (`if (this.eventSource)`), then run
`new EventSource(sseUrl)` — a fresh open handle — store it in
`this.eventSource` and install its three callbacks, which capture the
resolved `userId` `u`. -/
def connectOpen (w : World) (u : String) : World :=
  let w1 := if (w.client.eventSource).isSome then disconnectSSE w else w
  { w1 with
    client := { w1.client with eventSource := some w1.nextHandle }
    nextHandle := w1.nextHandle + 1
    openHandles := w1.openHandles ++ [w1.nextHandle]
    esUser := u }

/-- `connectSSE(userId = this.userId)`: validate `userId` and
`profileToken` (throwing before any state change when either is missing),
then tear down and open via `connectOpen`. -/
def connectSSE (w : World) (userIdArg : Option String) : Except JsError World :=
  match resolveUser w.client userIdArg with
  | none => .error .missingUserId
  | some u =>
    if falsyStr w.client.profileToken then .error .missingProfileToken
    else .ok (connectOpen w u)

/-- The `onopen` handler firing on the current handle: set the connected
flag, reset the reconnect counter and emit `connected` with the captured
`userId`.  With no current handle no signal can arrive. -/
def fireOpen (w : World) : World :=
  match w.client.eventSource with
  | none => w
  | some _ =>
    { w with
      client := { w.client with isConnected := true, reconnectAttempts := 0 }
      events := w.events ++ [⟨.connected, .userObj w.esUser⟩] }

/-- The `onerror` handler firing on the current handle: clear the connected
flag, emit `error` then `disconnected` (reason `error`), and, when the
reconnect counter is below the maximum, increment it and schedule a
`setTimeout` closure that will call `connectSSE` with the captured
`userId`.  The handle itself is neither closed nor cleared. -/
def fireError (w : World) : World :=
  match w.client.eventSource with
  | none => w
  | some _ =>
    let c := { w.client with isConnected := false }
    let evs := w.events ++ [⟨.error, .errObj⟩, ⟨.disconnected, .reasonObj "error"⟩]
    if c.reconnectAttempts < c.maxReconnectAttempts then
      { w with
        client := { c with reconnectAttempts := c.reconnectAttempts + 1 }
        events := evs
        timers := w.timers ++ [w.esUser] }
    else
      { w with client := c, events := evs }

/-- The `onmessage` handler firing on the current handle, its whole body
inside `try`/`catch`: `parsed` is the outcome of `JSON.parse(event.data)`
(`none` = the parse threw, caught and only logged).  On success dispatch on
the strict string comparison of `data.type`. -/
def onMessage (w : World) (parsed : Option JVal) : World :=
  match w.client.eventSource with
  | none => w
  | some _ =>
    match parsed with
    | none => w
    | some data =>
      if jsStrEq (data.getField "type") "notification" then
        { w with events := w.events ++ [⟨.notification, .json data⟩] }
      else if jsStrEq (data.getField "type") "unread_count" then
        { w with events := w.events ++ [⟨.unreadCount, .countField (data.getField "count")⟩] }
      else if jsStrEq (data.getField "type") "connected" then
        { w with events := w.events ++ [⟨.connected, .json data⟩] }
      else w

/-- The earliest pending `setTimeout(() => this.connectSSE(userId), ..)`
closure fires.  Nothing in the source ever cancels these timers.  Should
`connectSSE` throw inside the closure, the exception is swallowed by the
event loop and the client is untouched. -/
def fireTimer (w : World) : World :=
  match w.timers with
  | [] => w
  | u :: rest =>
    let w1 := { w with timers := rest }
    match connectSSE w1 (some u) with
    | .ok w2 => w2
    | .error _ => w1

/-- The record returned by `getStatus()`. -/
structure Status where
  isConnected : Bool
  reconnectAttempts : Nat
  hasEventSource : Bool
deriving Repr, DecidableEq

/-- `getStatus()`. -/
def getStatus (w : World) : Status :=
  { isConnected := w.client.isConnected
    reconnectAttempts := w.client.reconnectAttempts
    hasEventSource := (w.client.eventSource).isSome }

/-! ## The listener registry: `on`, `off`, `emit`

`emit` is analysed over abstract callback behaviours: a callback body is a
sequence of registry operations (the only registry-relevant effects a
callback can have) followed by a normal return or a throw.  Callbacks are
identified by numeric id, matching JS function identity. -/

/-- A registry operation a callback body may perform on the client. -/
inductive BusOp where
  /-- `client.on(e, cb)` -/
  | register (e : EventName) (cb : Nat)
  /-- `client.off(e, cb)` -/
  | deregister (e : EventName) (cb : Nat)

/-- An abstract callback body: the registry operations it performs, in
order, and whether it then throws instead of returning normally. -/
structure CbBehavior where
  ops : List BusOp
  throws : Bool

/-- `on(event, callback)`: push onto the event's list.  For the five fixed
event names the `if (!this.listeners[event])` initialisation branch never
fires, the constructor having created all five lists. -/
def busOn (st : Listeners) (e : EventName) (cb : Nat) : Listeners :=
  setL st e (getL st e ++ [cb])

/-- `off(event, callback)`: `indexOf` + `splice(index, 1)` removes the
first occurrence by identity; index `-1` (not found) is a no-op. -/
def busOff (st : Listeners) (e : EventName) (cb : Nat) : Listeners :=
  setL st e ((getL st e).erase cb)

/-- Run one registry operation of a callback body. -/
def applyOp (st : Listeners) : BusOp → Listeners
  | .register e cb => busOn st e cb
  | .deregister e cb => busOff st e cb

/-- Run a callback body's registry operations in order. -/
def applyOps (st : Listeners) : List BusOp → Listeners
  | [] => st
  | op :: rest => applyOps (applyOp st op) rest

/-- The `this.listeners[event].forEach(callback => try .. catch ..)` loop
of `emit`.  Per the ECMAScript `forEach` contract the length is read once
at the start and index `k` is visited only while an element exists there;
`push`/`splice` keep the array dense, so the element at `k` exists exactly
when `k` is below the current length.  `fuel` counts the indices remaining
of the initial length (`fuel = len - k`).  Each visit runs the callback
body — its registry mutations take effect, its throw is caught and only
logged — and the loop continues.  Returns the final registry and the ids
invoked, in order. -/
def emitLoop (beh : Nat → CbBehavior) (e : EventName) :
    Nat → Nat → Listeners → List Nat → Listeners × List Nat
  | 0, _, st, invoked => (st, invoked)
  | fuel + 1, k, st, invoked =>
    let l := getL st e
    if h : k < l.length then
      let cb := l.get ⟨k, h⟩
      emitLoop beh e fuel (k + 1) (applyOps st (beh cb).ops) (invoked ++ [cb])
    else
      emitLoop beh e fuel (k + 1) st invoked

/-- `emit(event, data)` under the behaviour assignment `beh`: iterate over
the event's current list.  (The `if (!this.listeners[event]) return` guard
never fires for the five fixed names.)  Total: a throwing callback is
caught inside the loop, so `emit` itself never throws. -/
def emit (beh : Nat → CbBehavior) (st : Listeners) (e : EventName) :
    Listeners × List Nat :=
  emitLoop beh e (getL st e).length 0 st []

/-- The same behaviours with every throw removed. -/
def stripThrows (beh : Nat → CbBehavior) : Nat → CbBehavior :=
  fun cb => { ops := (beh cb).ops, throws := false }

/-- How many of the logged `emit` calls carry the given event name. -/
def countEvents (e : EventName) (l : List EmitRec) : Nat :=
  (l.filter (fun r => r.name == e)).length

/-! ## Reachable client states and their structural invariants -/

/-- The worlds a `HermesClient` can actually be in: constructed, then
closed under the public operations and the transport/timer callbacks.  A
`connectSSE` call that throws leaves the world unchanged, so only the
successful case produces a new world. -/
inductive Reachable : World → Prop where
  | init (config : Config) : Reachable (mkWorld config)
  | connect (w w' : World) (u : Option String) :
      Reachable w → connectSSE w u = .ok w' → Reachable w'
  | disconnect (w : World) : Reachable w → Reachable (disconnectSSE w)
  | opened (w : World) : Reachable w → Reachable (fireOpen w)
  | errored (w : World) : Reachable w → Reachable (fireError w)
  | message (w : World) (p : Option JVal) :
      Reachable w → Reachable (onMessage w p)
  | timer (w : World) : Reachable w → Reachable (fireTimer w)

/-- Structural invariants of the client: the only open handle is the
current one, the connected flag implies a handle, and the reconnect
counter never exceeds its configured maximum. -/
def WF (w : World) : Prop :=
  w.openHandles = (w.client.eventSource).toList
  ∧ (w.client.isConnected = true → (w.client.eventSource).isSome = true)
  ∧ w.client.reconnectAttempts ≤ w.client.maxReconnectAttempts

/-! ## Concrete scenario fixtures -/

/-- Run `connectSSE`, keeping the prior state when it throws (the
scenarios below also prove the call in question returned `ok`). -/
def runConnect (w : World) (u : Option String) : World :=
  match connectSSE w u with
  | .ok w' => w'
  | .error _ => w

/-- A configuration with a default user and a profile token. -/
def cfgA : Config :=
  { baseUrl := some "http://hermes.test", appToken := none,
    profileToken := some "ptok", userId := some "user-7", debug := false,
    reconnectDelay := some 100, maxReconnectAttempts := some 3 }

/-- `cfgA` after construction and one successful `connectSSE()`. -/
def wConnA : World := runConnect (mkWorld cfgA) none

/-- A configuration that asks for `maxReconnectAttempts: 0` and
`reconnectDelay: 0`. -/
def cfgZero : Config :=
  { baseUrl := none, appToken := none, profileToken := some "ptok",
    userId := some "user-7", debug := false, reconnectDelay := some 0,
    maxReconnectAttempts := some 0 }

/-- A configuration with no user identifier at all. -/
def cfgNoUser : Config :=
  { baseUrl := none, appToken := none, profileToken := some "ptok",
    userId := none, debug := false, reconnectDelay := none,
    maxReconnectAttempts := none }

/-- A parametric configuration with attempt ceiling `n`. -/
def cfgFor (n : Nat) (u t : String) : Config :=
  { baseUrl := none, appToken := none, profileToken := some t,
    userId := some u, debug := false, reconnectDelay := none,
    maxReconnectAttempts := some n }

/-- The wire payload `{"type": "unread_count", "count": 5}` (braces
spelled out): an object with those two fields. -/
def msgCount5 : JVal :=
  .jobj [("type", .jstr "unread_count"), ("count", .jnum 5)]

/-- Registry with callbacks `0` and `1` registered for `notification`. -/
def stPair : Listeners :=
  { notification := [0, 1], connected := [], disconnected := [], error := [],
    unreadCount := [] }

/-- Behaviours where callback `0` unsubscribes itself during its own
invocation and callback `1` is inert. -/
def behSelfOff : Nat → CbBehavior :=
  fun cb =>
    if cb = 0 then { ops := [.deregister .notification 0], throws := false }
    else { ops := [], throws := false }

/-- Behaviours where every callback throws (and performs no registry
operation). -/
def behAllThrow : Nat → CbBehavior :=
  fun _ => { ops := [], throws := true }

/-- `wConnA` after a second `connectSSE()` call. -/
def wConnA2 : World := runConnect wConnA none

/-! ## Lemmas about `emit` -/

lemma emitLoop_stripThrows (beh : Nat → CbBehavior) (e : EventName) :
    ∀ fuel k st acc,
      emitLoop (stripThrows beh) e fuel k st acc = emitLoop beh e fuel k st acc := by
  intro fuel
  induction fuel with
  | zero => intro k st acc; rfl
  | succ fuel ih =>
    intro k st acc
    unfold emitLoop
    by_cases h : k < (getL st e).length
    · simp only [h, dif_pos]
      exact ih (k + 1) _ _
    · simp only [h, dif_neg, not_false_iff]
      exact ih (k + 1) _ _

lemma emitLoop_no_ops (beh : Nat → CbBehavior) (e : EventName) (st : Listeners)
    (hops : ∀ cb, (beh cb).ops = []) :
    ∀ fuel k acc, fuel + k = (getL st e).length →
      emitLoop beh e fuel k st acc = (st, acc ++ (getL st e).drop k) := by
  intro fuel
  induction fuel with
  | zero =>
    intro k acc hk
    simp only [Nat.zero_add] at hk
    subst hk
    simp [emitLoop, List.drop_length]
  | succ fuel ih =>
    intro k acc hk
    have hlt : k < (getL st e).length := by omega
    unfold emitLoop
    simp only [hlt, dif_pos]
    rw [hops ((getL st e).get ⟨k, hlt⟩)]
    show emitLoop beh e fuel (k + 1) st (acc ++ [(getL st e).get ⟨k, hlt⟩]) = _
    rw [ih (k + 1) (acc ++ [(getL st e).get ⟨k, hlt⟩]) (by omega)]
    have hcd : (getL st e).get ⟨k, hlt⟩ :: (getL st e).drop (k + 1) = (getL st e).drop k :=
      List.getElem_cons_drop _ k hlt
    rw [List.append_assoc, ← hcd]
    rfl

/-- C3: a throwing subscriber does not prevent the remaining subscribers
for that event from being invoked, and the exception does not escape
`emit`: the result of `emit` (final registry and invocation list) is
unchanged when every throw is removed, and when no callback mutates the
registry every registered callback is invoked, in order, throws
notwithstanding.  (`emit` is a total function: the `try`/`catch` around
each callback invocation swallows the exception.) -/
theorem emit_isolates_throwing_callbacks (beh : Nat → CbBehavior)
    (st : Listeners) (e : EventName) :
    emit (stripThrows beh) st e = emit beh st e
    ∧ ((∀ cb, (beh cb).ops = []) → (emit beh st e).2 = getL st e) := by
  constructor
  · unfold emit
    have h := emitLoop_stripThrows beh e (getL st e).length 0 st []
    simpa [stripThrows] using h
  · intro hops
    have h2 := emitLoop_no_ops beh e st hops (getL st e).length 0 [] (Nat.add_zero _)
    unfold emit
    rw [h2]
    simp

/-- Witness for C3: with both registered subscribers throwing, `emit`
still invokes both, in registration order. -/
theorem emit_isolates_throwing_callbacks_witness :
    (emit behAllThrow stPair .notification).2 = [0, 1] :=
  (emit_isolates_throwing_callbacks behAllThrow stPair .notification).2
    (fun _ => rfl)

/-- C4 (evaluation at the failing input): with callbacks `0` and `1`
registered for `notification` and callback `0` unsubscribing itself during
its own invocation, `emit` invokes only callback `0` — the live
`forEach`/`splice` interplay skips callback `1`, which was registered when
the publish began and was not unsubscribed. -/
theorem emit_reentrant_unsubscribe_skips_successor :
    getL stPair .notification = [0, 1]
    ∧ (emit behSelfOff stPair .notification).2 = [0]
    ∧ (emit behSelfOff stPair .notification).1.notification = [1] := by
  decide

/-- C9: a message whose payload fails to parse changes nothing at all —
no event is published (in particular no `error` event), the connection
state and the transport handle are untouched, and the handler returns
normally (`onMessage` is total; the `try`/`catch` confines the parse
failure to a log line). -/
theorem onmessage_parse_failure_is_noop (w : World) :
    onMessage w none = w := by
  cases hes : w.client.eventSource <;> simp [onMessage, hes]

lemma jsStrEq_unique (v : Option JVal) (s s' : String)
    (h : jsStrEq v s = true) (hne : s ≠ s') : jsStrEq v s' = false := by
  rcases v with _ | val
  · simp [jsStrEq] at h
  · rcases val with _ | b | n | t | el | fl <;> simp [jsStrEq] at h ⊢
    rintro rfl
    exact hne h.symm

/-- C8: `onmessage` dispatches on the discriminant exactly: a `type` of
`notification` publishes one `notification` event with the full payload
and nothing else; `unread_count` publishes one `unreadCount` event whose
payload is the `count` field and nothing else; `connected` publishes one
`connected` event with the payload and nothing else; any other value of
the discriminant (including a missing or non-string one) publishes no
event at all. -/
theorem onmessage_dispatch_by_discriminant (w : World) (data : JVal)
    (hes : (w.client.eventSource).isSome = true) :
    (jsStrEq (data.getField "type") "notification" = true →
      onMessage w (some data)
        = { w with events := w.events ++ [⟨.notification, .json data⟩] })
    ∧ (jsStrEq (data.getField "type") "unread_count" = true →
      onMessage w (some data)
        = { w with events :=
              w.events ++ [⟨.unreadCount, .countField (data.getField "count")⟩] })
    ∧ (jsStrEq (data.getField "type") "connected" = true →
      onMessage w (some data)
        = { w with events := w.events ++ [⟨.connected, .json data⟩] })
    ∧ (jsStrEq (data.getField "type") "notification" = false →
       jsStrEq (data.getField "type") "unread_count" = false →
       jsStrEq (data.getField "type") "connected" = false →
      onMessage w (some data) = w) := by
  obtain ⟨hdl, hhdl⟩ := Option.isSome_iff_exists.mp hes
  refine ⟨?_, ?_, ?_, ?_⟩
  · intro h1
    simp [onMessage, hhdl, h1]
  · intro h2
    have h1 := jsStrEq_unique _ _ "notification" h2 (by decide)
    simp [onMessage, hhdl, h1, h2]
  · intro h3
    have h1 := jsStrEq_unique _ _ "notification" h3 (by decide)
    have h2 := jsStrEq_unique _ _ "unread_count" h3 (by decide)
    simp [onMessage, hhdl, h1, h2, h3]
  · intro h1 h2 h3
    simp [onMessage, hhdl, h1, h2, h3]

/-- Witness for C8: the payload with `type` field `unread_count` and
`count` field `5`, arriving while connected, publishes exactly one
`unreadCount` event carrying `5` and nothing else. -/
theorem onmessage_dispatch_by_discriminant_witness :
    onMessage wConnA (some msgCount5)
      = { wConnA with
          events := wConnA.events ++ [⟨.unreadCount, .countField (some (.jnum 5))⟩] } :=
  (onmessage_dispatch_by_discriminant wConnA msgCount5 rfl).2.1 rfl

/-- C7: `connectSSE` with no resolved user identifier (no argument and no
configured default), or with no profile token, throws synchronously —
before any state change and before any `EventSource` is constructed — so
the client state is unchanged and no transport handle is opened. -/
theorem connect_missing_config_fails (w : World) (u : Option String)
    (h : resolveUser w.client u = none ∨ falsyStr w.client.profileToken = true) :
    (∃ e, connectSSE w u = Except.error e) ∧ runConnect w u = w := by
  have herr : ∃ e, connectSSE w u = Except.error e := by
    rcases h with h | h
    · exact ⟨.missingUserId, by simp [connectSSE, h]⟩
    · rcases hr : resolveUser w.client u with _ | v
      · exact ⟨.missingUserId, by simp [connectSSE, hr]⟩
      · exact ⟨.missingProfileToken, by simp [connectSSE, hr, h]⟩
  obtain ⟨e, he⟩ := herr
  exact ⟨⟨e, he⟩, by simp [runConnect, he]⟩

/-- Witness for C7: a client constructed with no user identifier; a
`connectSSE()` call throws the missing-user error and leaves the state
untouched. -/
theorem connect_missing_config_fails_witness :
    connectSSE (mkWorld cfgNoUser) none = Except.error JsError.missingUserId
    ∧ runConnect (mkWorld cfgNoUser) none = mkWorld cfgNoUser :=
  ⟨rfl, (connect_missing_config_fails (mkWorld cfgNoUser) none (Or.inl rfl)).2⟩

/-- C1 (evaluation at the failing input): connect, transport error (a
reconnect is now scheduled), manual `disconnectSSE` (handle closed and
cleared) — and then the pending reconnect timer fires anyway, because
nothing cancels it and the closure checks no generation marker: a brand
new transport handle (id 1) is opened after the manual disconnect. -/
theorem stale_reconnect_reopens_after_disconnect :
    connectSSE (mkWorld cfgA) none = Except.ok wConnA
    ∧ (fireError wConnA).timers = ["user-7"]
    ∧ (disconnectSSE (fireError wConnA)).client.eventSource = none
    ∧ (disconnectSSE (fireError wConnA)).openHandles = []
    ∧ (disconnectSSE (fireError wConnA)).timers = ["user-7"]
    ∧ (fireTimer (disconnectSSE (fireError wConnA))).client.eventSource = some 1
    ∧ (fireTimer (disconnectSSE (fireError wConnA))).openHandles = [1] := by
  refine ⟨rfl, rfl, rfl, rfl, rfl, rfl, rfl⟩

/-- C6 counterexample: a client constructed with
`maxReconnectAttempts: 0` and `reconnectDelay: 0` gets the defaults `10`
and `5000` instead (`0` is falsy under the constructor's `||` defaulting),
and a transport error on its connection does schedule a reconnect — the
configured `0` neither disables auto-reconnect nor is honored as `0`
milliseconds. -/
theorem zero_attempts_config_not_honored :
    (mkClient cfgZero).maxReconnectAttempts = 10
    ∧ (mkClient cfgZero).reconnectDelay = 5000
    ∧ (fireError (runConnect (mkWorld cfgZero) none)).timers.length = 1 := by
  refine ⟨rfl, rfl, rfl⟩

/-- C6 amended: a configured `maxReconnectAttempts` of `0` is falsy, so
the constructor substitutes the default ceiling `10` and auto-reconnect
stays enabled (the reconnect counter starts strictly below the effective
maximum); a configured `reconnectDelay` of `0` likewise becomes the
default `5000` milliseconds. -/
theorem zero_config_falls_back_to_defaults (config : Config)
    (hm : config.maxReconnectAttempts = some 0)
    (hd : config.reconnectDelay = some 0) :
    (mkClient config).maxReconnectAttempts = 10
    ∧ (mkClient config).reconnectDelay = 5000
    ∧ (mkClient config).reconnectAttempts < (mkClient config).maxReconnectAttempts := by
  refine ⟨?_, ?_, ?_⟩ <;> simp [mkClient, jsOrNat, hm, hd]

/-- Witness for C6's amended statement, at the concrete configuration
asking for `0`/`0`. -/
theorem zero_config_falls_back_to_defaults_witness :
    (mkClient cfgZero).maxReconnectAttempts = 10
    ∧ (mkClient cfgZero).reconnectAttempts < (mkClient cfgZero).maxReconnectAttempts :=
  ⟨(zero_config_falls_back_to_defaults cfgZero rfl rfl).1,
   (zero_config_falls_back_to_defaults cfgZero rfl rfl).2.2⟩

/-! ## Preservation of the structural invariants -/

lemma wf_mkWorld (config : Config) : WF (mkWorld config) := by
  refine ⟨rfl, ?_, ?_⟩ <;> simp [mkWorld, mkClient]

lemma wf_disconnectSSE (w : World) (hw : WF w) : WF (disconnectSSE w) := by
  obtain ⟨h1, h2, h3⟩ := hw
  rcases hes : w.client.eventSource with _ | hdl
  · simpa [disconnectSSE, hes] using ⟨h1, h2, h3⟩
  · rw [hes] at h1
    refine ⟨?_, ?_, ?_⟩ <;> simp [disconnectSSE, hes, h1, h3]

lemma connectOpen_events (w : World) (u : String) :
    ∃ t, (connectOpen w u).events = w.events ++ t
      ∧ countEvents .connected t = 0 := by
  by_cases hs : (w.client.eventSource).isSome
  · rcases hes : w.client.eventSource with _ | hdl
    · rw [hes] at hs; simp at hs
    · exact ⟨[⟨.disconnected, .reasonObj "manual"⟩],
        by simp [connectOpen, hs, disconnectSSE, hes], by simp [countEvents]⟩
  · exact ⟨[], by simp [connectOpen, hs], by simp [countEvents]⟩

lemma connectOpen_eventSource (w : World) (u : String) :
    (connectOpen w u).client.eventSource
      = some (if (w.client.eventSource).isSome then disconnectSSE w else w).nextHandle := by
  by_cases hs : (w.client.eventSource).isSome <;> simp [connectOpen, hs]

lemma connectOpen_counters (w : World) (u : String) :
    (connectOpen w u).client.reconnectAttempts = w.client.reconnectAttempts
    ∧ (connectOpen w u).client.maxReconnectAttempts = w.client.maxReconnectAttempts
    ∧ (connectOpen w u).esUser = u
    ∧ (connectOpen w u).timers = w.timers := by
  by_cases hs : (w.client.eventSource).isSome
  · rcases hes : w.client.eventSource with _ | hdl
    · rw [hes] at hs; simp at hs
    · refine ⟨?_, ?_, ?_, ?_⟩ <;> simp [connectOpen, hs, disconnectSSE, hes]
  · refine ⟨?_, ?_, ?_, ?_⟩ <;> simp [connectOpen, hs]

lemma wf_connectOpen (w : World) (u : String) (hw : WF w) :
    WF (connectOpen w u) := by
  obtain ⟨h1, h2, h3⟩ := hw
  by_cases hs : (w.client.eventSource).isSome
  · rcases hes : w.client.eventSource with _ | hdl
    · rw [hes] at hs; simp at hs
    · rw [hes] at h1
      refine ⟨?_, ?_, ?_⟩ <;> simp [connectOpen, hs, disconnectSSE, hes, h1, h3]
  · rcases hes : w.client.eventSource with _ | hdl
    · rw [hes] at h1
      refine ⟨?_, ?_, ?_⟩ <;> simp [connectOpen, hs, h1, h3]
    · rw [hes] at hs; simp at hs

lemma connectSSE_ok_shape (w : World) (u : Option String) (w' : World)
    (h : connectSSE w u = .ok w') :
    ∃ uR, resolveUser w.client u = some uR
      ∧ falsyStr w.client.profileToken = false
      ∧ w' = connectOpen w uR := by
  rcases hr : resolveUser w.client u with _ | uR
  · simp [connectSSE, hr] at h
  · rcases hf : falsyStr w.client.profileToken
    · simp only [connectSSE, hr, hf, Bool.false_eq_true, if_false] at h
      exact ⟨uR, rfl, rfl, (Except.ok.injEq _ _).mp h |>.symm⟩
    · simp [connectSSE, hr, hf] at h

lemma wf_connectSSE (w : World) (u : Option String) (w' : World)
    (hw : WF w) (h : connectSSE w u = .ok w') : WF w' := by
  obtain ⟨uR, _, _, rfl⟩ := connectSSE_ok_shape w u w' h
  exact wf_connectOpen w uR hw

lemma wf_fireOpen (w : World) (hw : WF w) : WF (fireOpen w) := by
  obtain ⟨h1, h2, h3⟩ := hw
  rcases hes : w.client.eventSource with _ | hdl
  · simpa [fireOpen, hes] using ⟨h1, h2, h3⟩
  · rw [hes] at h1
    refine ⟨?_, ?_, ?_⟩ <;> simp [fireOpen, hes, h1]

lemma wf_fireError (w : World) (hw : WF w) : WF (fireError w) := by
  obtain ⟨h1, h2, h3⟩ := hw
  rcases hes : w.client.eventSource with _ | hdl
  · simpa [fireError, hes] using ⟨h1, h2, h3⟩
  · rw [hes] at h1
    by_cases hlt : w.client.reconnectAttempts < w.client.maxReconnectAttempts
    · refine ⟨?_, ?_, ?_⟩ <;> simp [fireError, hes, hlt, h1]
      omega
    · refine ⟨?_, ?_, ?_⟩ <;> simp [fireError, hes, hlt, h1, h3]

lemma onMessage_frame (w : World) (p : Option JVal) :
    (onMessage w p).client = w.client
    ∧ (onMessage w p).openHandles = w.openHandles := by
  rcases hes : w.client.eventSource with _ | hdl
  · simp [onMessage, hes]
  · rcases p with _ | data
    · simp [onMessage, hes]
    · simp only [onMessage, hes]
      split
      · exact ⟨rfl, rfl⟩
      split
      · exact ⟨rfl, rfl⟩
      split
      · exact ⟨rfl, rfl⟩
      · exact ⟨rfl, rfl⟩

lemma wf_onMessage (w : World) (p : Option JVal) (hw : WF w) :
    WF (onMessage w p) := by
  obtain ⟨hc, ho⟩ := onMessage_frame w p
  unfold WF
  rw [hc, ho]
  exact hw

lemma wf_fireTimer (w : World) (hw : WF w) : WF (fireTimer w) := by
  rcases ht : w.timers with _ | ⟨tu, rest⟩
  · simpa [fireTimer, ht] using hw
  · have hw1 : WF { w with timers := rest } := hw
    rcases hc : connectSSE { w with timers := rest } (some tu) with w2 | e
    · simp only [fireTimer, ht]
      rw [hc]
      exact hw1
    · simp only [fireTimer, ht]
      rw [hc]
      exact wf_connectSSE _ _ _ hw1 hc

lemma reachable_wf (w : World) (hr : Reachable w) : WF w := by
  induction hr with
  | init config => exact wf_mkWorld config
  | connect w w' u _ hok ih => exact wf_connectSSE w u w' ih hok
  | disconnect w _ ih => exact wf_disconnectSSE w ih
  | opened w _ ih => exact wf_fireOpen w ih
  | errored w _ ih => exact wf_fireError w ih
  | message w p _ ih => exact wf_onMessage w p ih
  | timer w _ ih => exact wf_fireTimer w ih

/-- C10: in every reachable client state, a true `isConnected` in
`getStatus()` comes with a true `hasEventSource` — the connected flag is
only ever set after a transport handle is assigned and every path that
clears the handle (`disconnectSSE`, replacement in `connectSSE`) also
clears the flag, so the implication is preserved by construction,
`connectSSE`, the `onopen`/`onmessage`/`onerror` handlers, `disconnectSSE`
and the scheduled reconnects. -/
theorem status_connected_implies_handle (w : World) (hr : Reachable w)
    (hc : (getStatus w).isConnected = true) :
    (getStatus w).hasEventSource = true :=
  (reachable_wf w hr).2.1 hc

/-- Witness for C10: a constructed, connected and opened client reports
`isConnected` and indeed holds a transport handle. -/
theorem status_connected_implies_handle_witness :
    (getStatus (fireOpen wConnA)).isConnected = true
    ∧ (getStatus (fireOpen wConnA)).hasEventSource = true :=
  ⟨rfl,
   status_connected_implies_handle (fireOpen wConnA)
     (Reachable.opened wConnA
       (Reachable.connect (mkWorld cfgA) wConnA none (Reachable.init cfgA) rfl))
     rfl⟩

/-! ## Lemmas for the double-connect and reconnect-counter claims -/

lemma countEvents_append (e : EventName) (a b : List EmitRec) :
    countEvents e (a ++ b) = countEvents e a + countEvents e b := by
  simp [countEvents, List.filter_append]

lemma fireOpen_some (w : World) (hdl : Nat)
    (hes : w.client.eventSource = some hdl) :
    (fireOpen w).events = w.events ++ [⟨.connected, .userObj w.esUser⟩]
    ∧ (fireOpen w).openHandles = w.openHandles := by
  simp [fireOpen, hes]

/-- C2: starting from any reachable state, two `connectSSE` calls in
succession leave exactly one open transport handle (the first handle is
torn down when the second call enters), and once the second connection's
`onopen` fires exactly one `connected` event has been published since
before the first call (the teardown publishes only `disconnected`);
moreover every reachable state has at most one open transport handle. -/
theorem connect_twice_one_handle :
    (∀ (w : World) (u1 u2 : Option String) (w1 w2 : World),
      Reachable w → connectSSE w u1 = .ok w1 → connectSSE w1 u2 = .ok w2 →
        w2.openHandles.length = 1
        ∧ countEvents .connected ((fireOpen w2).events.drop w.events.length) = 1
        ∧ (fireOpen w2).openHandles.length = 1)
    ∧ (∀ w : World, Reachable w → w.openHandles.length ≤ 1) := by
  constructor
  · intro w u1 u2 w1 w2 hr h1 h2
    have hw : WF w := reachable_wf w hr
    have hw1 : WF w1 := wf_connectSSE w u1 w1 hw h1
    have hw2 : WF w2 := wf_connectSSE w1 u2 w2 hw1 h2
    obtain ⟨uR1, -, -, hshape1⟩ := connectSSE_ok_shape w u1 w1 h1
    obtain ⟨uR2, -, -, hshape2⟩ := connectSSE_ok_shape w1 u2 w2 h2
    have hsome2 : (w2.client.eventSource).isSome = true := by
      rw [hshape2, connectOpen_eventSource]; rfl
    obtain ⟨hdl2, hhdl2⟩ := Option.isSome_iff_exists.mp hsome2
    have hoh2 : w2.openHandles = [hdl2] := by rw [hw2.1, hhdl2]; rfl
    obtain ⟨t1, he1, hc1⟩ := connectOpen_events w uR1
    obtain ⟨t2, he2, hc2⟩ := connectOpen_events w1 uR2
    have hev1 : w1.events = w.events ++ t1 := by rw [hshape1]; exact he1
    have hev2 : w2.events = w.events ++ (t1 ++ t2) := by
      rw [hshape2, he2, hev1, List.append_assoc]
    obtain ⟨hfo1, hfo2⟩ := fireOpen_some w2 hdl2 hhdl2
    refine ⟨by rw [hoh2]; rfl, ?_, by rw [hfo2, hoh2]; rfl⟩
    rw [hfo1, hev2, List.append_assoc, List.drop_left]
    rw [countEvents_append, countEvents_append, hc1, hc2]
    rfl
  · intro w hr
    have h1 := (reachable_wf w hr).1
    rw [h1]
    rcases w.client.eventSource with _ | hdl <;> simp

/-- Witness for C2: the concrete client of `cfgA`, connected twice in
succession, holds exactly one open handle and exactly one `connected`
event is published when the second connection opens. -/
theorem connect_twice_one_handle_witness :
    wConnA2.openHandles.length = 1
    ∧ countEvents .connected
        ((fireOpen wConnA2).events.drop (mkWorld cfgA).events.length) = 1
    ∧ (fireOpen wConnA2).openHandles.length = 1 :=
  connect_twice_one_handle.1 (mkWorld cfgA) none none wConnA wConnA2
    (Reachable.init cfgA) rfl rfl

lemma fireError_es (w : World) :
    (fireError w).client.eventSource = w.client.eventSource := by
  rcases hes : w.client.eventSource with _ | hdl <;>
    simp [fireError, hes] <;> split <;> rfl

lemma fireError_max (w : World) :
    (fireError w).client.maxReconnectAttempts = w.client.maxReconnectAttempts := by
  rcases hes : w.client.eventSource with _ | hdl <;>
    simp [fireError, hes] <;> split <;> rfl

lemma fireError_attempts (w : World) (hdl : Nat)
    (hes : w.client.eventSource = some hdl) :
    (fireError w).client.reconnectAttempts
      = if w.client.reconnectAttempts < w.client.maxReconnectAttempts
        then w.client.reconnectAttempts + 1 else w.client.reconnectAttempts := by
  by_cases hlt : w.client.reconnectAttempts < w.client.maxReconnectAttempts <;>
    simp [fireError, hes, hlt]

lemma fireError_timers_len (w : World) (hdl : Nat)
    (hes : w.client.eventSource = some hdl) :
    (fireError w).timers.length
      = if w.client.reconnectAttempts < w.client.maxReconnectAttempts
        then w.timers.length + 1 else w.timers.length := by
  by_cases hlt : w.client.reconnectAttempts < w.client.maxReconnectAttempts <;>
    simp [fireError, hes, hlt]

lemma fireError_no_schedule (w : World)
    (h : ¬ w.client.reconnectAttempts < w.client.maxReconnectAttempts) :
    (fireError w).timers = w.timers
    ∧ (fireError w).client.reconnectAttempts = w.client.reconnectAttempts := by
  rcases hes : w.client.eventSource with _ | hdl <;> simp [fireError, hes, h]

lemma fireError_iter (k : Nat) (w : World)
    (hes : (w.client.eventSource).isSome = true)
    (hle : w.client.reconnectAttempts ≤ w.client.maxReconnectAttempts) :
    (fireError^[k] w).client.eventSource = w.client.eventSource
    ∧ (fireError^[k] w).client.maxReconnectAttempts = w.client.maxReconnectAttempts
    ∧ (fireError^[k] w).client.reconnectAttempts
        = min (w.client.reconnectAttempts + k) w.client.maxReconnectAttempts
    ∧ (fireError^[k] w).timers.length
        = w.timers.length
          + (min (w.client.reconnectAttempts + k) w.client.maxReconnectAttempts
              - w.client.reconnectAttempts) := by
  induction k generalizing w with
  | zero =>
    refine ⟨rfl, rfl, ?_, ?_⟩ <;> simp <;> omega
  | succ k ih =>
    obtain ⟨hdl, hhdl⟩ := Option.isSome_iff_exists.mp hes
    have hes1 : (fireError w).client.eventSource = w.client.eventSource :=
      fireError_es w
    have hsome1 : ((fireError w).client.eventSource).isSome = true := by
      rw [hes1]; exact hes
    have hm1 := fireError_max w
    have ha1 := fireError_attempts w hdl hhdl
    have ht1 := fireError_timers_len w hdl hhdl
    have hle1 : (fireError w).client.reconnectAttempts
        ≤ (fireError w).client.maxReconnectAttempts := by
      rw [ha1, hm1]; split <;> omega
    obtain ⟨ih1, ih2, ih3, ih4⟩ := ih (fireError w) hsome1 hle1
    rw [Function.iterate_succ_apply]
    refine ⟨by rw [ih1, hes1], by rw [ih2, hm1], ?_, ?_⟩
    · rw [ih3, ha1, hm1]
      split <;> omega
    · rw [ih4, ht1, ha1, hm1]
      split <;> omega

lemma runConnect_cfgFor (N : Nat) (u t : String)
    (hN : N ≠ 0) (hu : u ≠ "") (ht : t ≠ "") :
    connectSSE (mkWorld (cfgFor N u t)) none
      = Except.ok (runConnect (mkWorld (cfgFor N u t)) none)
    ∧ (runConnect (mkWorld (cfgFor N u t)) none).client.eventSource = some 0
    ∧ (runConnect (mkWorld (cfgFor N u t)) none).client.reconnectAttempts = 0
    ∧ (runConnect (mkWorld (cfgFor N u t)) none).client.maxReconnectAttempts = N
    ∧ (runConnect (mkWorld (cfgFor N u t)) none).timers = [] := by
  have hok : connectSSE (mkWorld (cfgFor N u t)) none
      = .ok (connectOpen (mkWorld (cfgFor N u t)) u) := by
    simp [connectSSE, resolveUser, mkWorld, mkClient, cfgFor, jsOrNull,
      falsyStr, hu, ht]
  have hrun : runConnect (mkWorld (cfgFor N u t)) none
      = connectOpen (mkWorld (cfgFor N u t)) u := by
    simp [runConnect, hok]
  refine ⟨by rw [hok, hrun], ?_, ?_, ?_, ?_⟩ <;> rw [hrun] <;>
    simp [connectOpen, mkWorld, mkClient, cfgFor, jsOrNat, jsOrNull, hN]

/-- C5: with `maxReconnectAttempts` configured to `N ≥ 1`, after a
successful connect and `N` consecutive transport errors the reconnect
counter reported by `getStatus()` is exactly `N` and exactly `N`
reconnects have been scheduled; a further error schedules nothing and
leaves the counter at `N`; any successful open resets the counter to `0`;
and along the whole error sequence the counter never exceeds `N`. -/
theorem reconnect_attempts_capped (N : Nat) (u t : String)
    (hN : 1 ≤ N) (hu : u ≠ "") (ht : t ≠ "") :
    connectSSE (mkWorld (cfgFor N u t)) none
      = Except.ok (runConnect (mkWorld (cfgFor N u t)) none)
    ∧ (getStatus (fireError^[N] (runConnect (mkWorld (cfgFor N u t)) none))).reconnectAttempts = N
    ∧ (fireError^[N] (runConnect (mkWorld (cfgFor N u t)) none)).timers.length = N
    ∧ (fireError (fireError^[N] (runConnect (mkWorld (cfgFor N u t)) none))).timers
        = (fireError^[N] (runConnect (mkWorld (cfgFor N u t)) none)).timers
    ∧ (getStatus (fireError (fireError^[N] (runConnect (mkWorld (cfgFor N u t)) none)))).reconnectAttempts
        = N
    ∧ (∀ w : World, (w.client.eventSource).isSome = true →
        (getStatus (fireOpen w)).reconnectAttempts = 0)
    ∧ (∀ k : Nat,
        (getStatus (fireError^[k] (runConnect (mkWorld (cfgFor N u t)) none))).reconnectAttempts
          ≤ N) := by
  obtain ⟨hok, hes0, ha0, hm0, ht0⟩ :=
    runConnect_cfgFor N u t (by omega) hu ht
  have hsome0 : ((runConnect (mkWorld (cfgFor N u t)) none).client.eventSource).isSome = true := by
    rw [hes0]; rfl
  have hle0 : (runConnect (mkWorld (cfgFor N u t)) none).client.reconnectAttempts
      ≤ (runConnect (mkWorld (cfgFor N u t)) none).client.maxReconnectAttempts := by
    rw [ha0, hm0]; omega
  obtain ⟨hit1, hit2, hit3, hit4⟩ :=
    fireError_iter N (runConnect (mkWorld (cfgFor N u t)) none) hsome0 hle0
  rw [ha0, hm0] at hit3 hit4
  have haN : (fireError^[N] (runConnect (mkWorld (cfgFor N u t)) none)).client.reconnectAttempts
      = N := by rw [hit3]; omega
  have hmN : (fireError^[N] (runConnect (mkWorld (cfgFor N u t)) none)).client.maxReconnectAttempts
      = N := by rw [hit2, hm0]
  have hnolt : ¬ (fireError^[N] (runConnect (mkWorld (cfgFor N u t)) none)).client.reconnectAttempts
      < (fireError^[N] (runConnect (mkWorld (cfgFor N u t)) none)).client.maxReconnectAttempts := by
    rw [haN, hmN]; omega
  obtain ⟨hns1, hns2⟩ := fireError_no_schedule _ hnolt
  refine ⟨hok, haN, ?_, hns1, ?_, ?_, ?_⟩
  · rw [hit4, ht0]; simp
  · show (fireError (fireError^[N] (runConnect (mkWorld (cfgFor N u t)) none))).client.reconnectAttempts = N
    rw [hns2, haN]
  · intro w hs
    obtain ⟨hdl, hhdl⟩ := Option.isSome_iff_exists.mp hs
    show (fireOpen w).client.reconnectAttempts = 0
    simp [fireOpen, hhdl]
  · intro k
    obtain ⟨-, -, hk3, -⟩ :=
      fireError_iter k (runConnect (mkWorld (cfgFor N u t)) none) hsome0 hle0
    show (fireError^[k] (runConnect (mkWorld (cfgFor N u t)) none)).client.reconnectAttempts ≤ N
    rw [hk3, ha0, hm0]
    omega

/-- Witness for C5 at `N = 2`: after two consecutive errors the counter
reads `2`, two reconnects are scheduled, and a third error schedules no
further reconnect. -/
theorem reconnect_attempts_capped_witness :
    (getStatus (fireError^[2] (runConnect (mkWorld (cfgFor 2 "u" "t")) none))).reconnectAttempts = 2
    ∧ (fireError (fireError^[2] (runConnect (mkWorld (cfgFor 2 "u" "t")) none))).timers
        = (fireError^[2] (runConnect (mkWorld (cfgFor 2 "u" "t")) none)).timers :=
  ⟨(reconnect_attempts_capped 2 "u" "t" (by omega) (by decide) (by decide)).2.1,
   (reconnect_attempts_capped 2 "u" "t" (by omega) (by decide) (by decide)).2.2.2.1⟩

end Hermes
